import Mathlib

/-!
Shallow embedding of the FKM instance manager (`src/manager.py`) and proofs
about it: the instances registry, the persisted selection, the progress
tracker, the asynchronous operation workers, and the action-lock discipline
at the API boundary.

Modelling conventions:
* All manager-visible machine state (the instances registry as an ordered
  name-to-path association list, mirroring Python's insertion-ordered dict
  built from a directory scan; the selection file, `none` when missing or
  unreadable; the global progress record; and the ordered trace of executed
  external commands) is collected in `MState`.
* External command exit codes and run-state probe results are supplied by
  explicit environment records: the Python code only inspects exit codes
  (and, in `compose_status`, the parsed output), never anything else.
* The progress log is modelled as a list of lines.  Output text streamed
  into the log by `run_cmd_live` is abstracted away (no claim mentions the
  log's contents); explicitly logged lines and all stage labels/statuses
  are kept.
* Strings are treated at ASCII fidelity: Python's `str.strip` is modelled
  by `pyStrip` and `str.isalnum` by `Char.isAlphanum`, which agree on
  ASCII inputs.
-/

namespace FIM

/-- Stage status values, exactly the four strings used by `manager.py`. -/
inductive StageStatus
  | pending
  | running
  | done
  | error
  deriving DecidableEq

/-- One entry of `_progress["stages"]`: `{"label": s, "status": st}`. -/
structure Stage where
  label : String
  status : StageStatus
  deriving DecidableEq

/-- The global `_progress` record of `manager.py`. -/
structure Progress where
  active : Bool
  stages : List Stage
  log : List String
  done : Bool
  ok : Bool
  deriving DecidableEq

/-- The initial `_progress` value from `manager.py`. -/
def initProgress : Progress :=
  { active := false, stages := [], log := [], done := true, ok := true }

/-- `progress_reset(stages)`: replace stages with pending ones, clear log,
set `active`, clear `done`, reset `ok`. -/
def progress_reset (labels : List String) : Progress :=
  { active := true, done := false, ok := true, log := [],
    stages := labels.map (fun l => { label := l, status := .pending }) }

/-- Set the status of the stage at index `idx`; out-of-range indices are
ignored, as in `progress_stage`. -/
def setStage : List Stage → Nat → StageStatus → List Stage
  | [], _, _ => []
  | st :: rest, 0, v => { st with status := v } :: rest
  | st :: rest, n + 1, v => st :: setStage rest n v

/-- `progress_stage(idx, status, log_line)`. -/
def progress_stage (p : Progress) (idx : Nat) (v : StageStatus) (line : String) : Progress :=
  { p with stages := setStage p.stages idx v,
           log := if line = "" then p.log else p.log ++ [line] }

/-- `progress_done(ok)`. -/
def progress_done (p : Progress) (ok : Bool) : Progress :=
  { p with done := true, active := false, ok := ok }

/-- One external command invocation (argv plus working directory). -/
structure Cmd where
  argv : List String
  cwd : Option String
  deriving DecidableEq

/-- The manager's machine state. -/
structure MState where
  registry : List (String × String)
  selFile : Option String
  progress : Progress
  trace : List Cmd
  deriving DecidableEq

/-- Membership lookup in the registry (`name in insts` / `insts[name]`),
returning the instance path. -/
def lookupInst (reg : List (String × String)) (n : String) : Option String :=
  (reg.find? (fun p => p.1 == n)).map (fun p => p.2)

/-- `set_selected(name)`: write the file when the name is a nonempty
registry member, otherwise remove the file. -/
def set_selected (n : String) (s : MState) : MState :=
  if n ≠ "" ∧ (lookupInst s.registry n).isSome then { s with selFile := some n }
  else { s with selFile := none }

/-- The value `get_selected()` returns, as a function of registry and
selection file: the file's content when it names a nonempty registry
member, otherwise the first registry member (or `none` if empty). -/
def resolveSel (reg : List (String × String)) (file : Option String) : Option String :=
  match file with
  | some v =>
      if v ≠ "" ∧ (lookupInst reg v).isSome then some v
      else reg.head?.map (fun p => p.1)
  | none => reg.head?.map (fun p => p.1)

/-- `get_selected()`: returns the resolved selection and, when the file did
not resolve and the registry is non-empty, repairs the file to the first
registry member via `set_selected`. -/
def get_selected (s : MState) : Option String × MState :=
  match s.selFile with
  | some v =>
      if v ≠ "" ∧ (lookupInst s.registry v).isSome then (some v, s)
      else
        match s.registry with
        | [] => (none, s)
        | (n, _) :: _ => (some n, set_selected n s)
  | none =>
      match s.registry with
      | [] => (none, s)
      | (n, _) :: _ => (some n, set_selected n s)

/-- `run_cmd` / `run_cmd_live`: record the command in the trace; the exit
code is supplied by the environment. -/
def runCmd (c : Cmd) (exit : Int) (s : MState) : Int × MState :=
  (exit, { s with trace := s.trace ++ [c] })

-- ── Basic lemmas about selection ────────────────────────────────────────────

theorem lookupInst_cons_self (n p : String) (t : List (String × String)) :
    lookupInst ((n, p) :: t) n = some p := by
  simp [lookupInst, List.find?]

theorem set_selected_registry (n : String) (s : MState) :
    (set_selected n s).registry = s.registry := by
  unfold set_selected; split <;> rfl

theorem set_selected_trace (n : String) (s : MState) :
    (set_selected n s).trace = s.trace := by
  unfold set_selected; split <;> rfl

theorem set_selected_progress (n : String) (s : MState) :
    (set_selected n s).progress = s.progress := by
  unfold set_selected; split <;> rfl

theorem get_selected_fst (s : MState) :
    (get_selected s).1 = resolveSel s.registry s.selFile := by
  obtain ⟨reg, file, prog, tr⟩ := s
  cases file with
  | none => cases reg with
    | nil => rfl
    | cons a t => cases a; rfl
  | some v =>
    by_cases hv : v ≠ "" ∧ (lookupInst reg v).isSome
    · simp [get_selected, resolveSel, hv]
    · cases reg with
      | nil => simp [get_selected, resolveSel, hv]
      | cons a t => cases a; simp [get_selected, resolveSel, hv]

theorem get_selected_registry (s : MState) :
    (get_selected s).2.registry = s.registry := by
  obtain ⟨reg, file, prog, tr⟩ := s
  cases file with
  | none => cases reg with
    | nil => rfl
    | cons a t => cases a; simp [get_selected, set_selected_registry]
  | some v =>
    by_cases hv : v ≠ "" ∧ (lookupInst reg v).isSome
    · simp [get_selected, hv]
    · cases reg with
      | nil => simp [get_selected, hv]
      | cons a t => cases a; simp [get_selected, hv, set_selected_registry]

theorem get_selected_trace (s : MState) :
    (get_selected s).2.trace = s.trace := by
  obtain ⟨reg, file, prog, tr⟩ := s
  cases file with
  | none => cases reg with
    | nil => rfl
    | cons a t => cases a; simp [get_selected, set_selected_trace]
  | some v =>
    by_cases hv : v ≠ "" ∧ (lookupInst reg v).isSome
    · simp [get_selected, hv]
    · cases reg with
      | nil => simp [get_selected, hv]
      | cons a t => cases a; simp [get_selected, hv, set_selected_trace]

theorem get_selected_progress (s : MState) :
    (get_selected s).2.progress = s.progress := by
  obtain ⟨reg, file, prog, tr⟩ := s
  cases file with
  | none => cases reg with
    | nil => rfl
    | cons a t => cases a; simp [get_selected, set_selected_progress]
  | some v =>
    by_cases hv : v ≠ "" ∧ (lookupInst reg v).isSome
    · simp [get_selected, hv]
    · cases reg with
      | nil => simp [get_selected, hv]
      | cons a t => cases a; simp [get_selected, hv, set_selected_progress]

/-- Re-resolving the selection after `get_selected`'s repair yields the same
value: the repair writes exactly the resolved member (or clears the file
when that member's name is empty, in which case resolution still lands on
the same head). -/
theorem get_selected_resolve_again (s : MState) :
    resolveSel s.registry (get_selected s).2.selFile
      = resolveSel s.registry s.selFile := by
  obtain ⟨reg, file, prog, tr⟩ := s
  cases file with
  | none =>
    cases reg with
    | nil => rfl
    | cons a t =>
      obtain ⟨n, p⟩ := a
      by_cases hn : n = ""
      · subst hn
        simp [get_selected, set_selected, lookupInst_cons_self, resolveSel]
      · simp [get_selected, set_selected, lookupInst_cons_self, hn, resolveSel]
  | some v =>
    by_cases hv : v ≠ "" ∧ (lookupInst reg v).isSome
    · simp [get_selected, hv]
    · cases reg with
      | nil => simp [get_selected, hv]
      | cons a t =>
        obtain ⟨n, p⟩ := a
        by_cases hn : n = ""
        · subst hn
          simp [get_selected, hv, set_selected, lookupInst_cons_self, resolveSel]
        · simp [get_selected, hv, set_selected, lookupInst_cons_self, hn, resolveSel]

-- ── compose status probe ────────────────────────────────────────────────────

/-- Python's `str.strip()` at ASCII fidelity: drop leading and trailing
whitespace characters (structurally recursive so that concrete inputs
evaluate inside the kernel). -/
def pyStrip (s : String) : String :=
  ⟨((s.data.dropWhile Char.isWhitespace).reverse.dropWhile Char.isWhitespace).reverse⟩

/-- One parsed record of `docker compose ps --format json` output: the three
fields `compose_status` reads, each possibly absent. -/
structure PsRec where
  name : Option String
  state : Option String
  status : Option String
  deriving DecidableEq

/-- The row text `compose_status` builds for a parsed record, with `?` for
absent fields. -/
def psRow (o : PsRec) : String :=
  o.name.getD "?" ++ ": " ++ o.state.getD "?" ++ " (" ++ o.status.getD "?" ++ ")"

/-- Split a character list into newline-separated lines (accumulator holds
the current line reversed). -/
def splitLinesAux : List Char → List Char → List String
  | [], acc => [String.mk acc.reverse]
  | c :: rest, acc =>
    if c = '\n' then String.mk acc.reverse :: splitLinesAux rest []
    else splitLinesAux rest (c :: acc)

/-- `str.splitlines` at newline fidelity (structurally recursive). -/
def splitLines (s : String) : List String :=
  splitLinesAux s.data []

/-- The non-blank lines of command output: `out.strip().splitlines()` with
blank lines dropped, as `compose_status` computes them. -/
def pyLines (out : String) : List String :=
  (splitLines (pyStrip out)).filter (fun l => pyStrip l ≠ "")

/-- The loop body of `compose_status`: walk the lines left to right keeping
the `all_up` flag and the accumulated rows; a line that parses contributes
its formatted row and its running-check, a line that does not parse is
appended verbatim and leaves `all_up` alone. -/
def statusScan (parse : String → Option PsRec) : List String → Bool × List String
  | [] => (true, [])
  | l :: rest =>
    let r := statusScan parse rest
    match parse l with
    | some o => ((o.state == some "running") && r.1, psRow o :: r.2)
    | none => (r.1, l :: r.2)

/-- `compose_status(name)` as a pure function of the registry, the ps
command's exit code and raw output, and the JSON line parser (the external
`json.loads` plus field extraction).  Returns the running flag and the
status-text lines. -/
def compose_status (parse : String → Option PsRec) (reg : List (String × String))
    (name : String) (code : Int) (out : String) : Bool × List String :=
  if (lookupInst reg name).isNone then (false, ["Instance not found"])
  else if code ≠ 0 then
    (false, [if pyStrip out ≠ "" then pyStrip out else "Error running docker compose ps"])
  else
    match pyLines out with
    | [] => (false, ["No containers"])
    | _ :: _ => statusScan parse (pyLines out)

-- ── Instance creation and deletion ──────────────────────────────────────────

/-- The `TEMPLATES` table of `manager.py`. -/
def TEMPLATES : List (String × String) :=
  [("fkmtest", "/root/fkmtest"), ("prod", "/root/prod")]

/-- Path of a new instance directory, `os.path.join(INSTANCES_DIR, name)`. -/
def instPath (name : String) : String :=
  "instances/" ++ name

/-- The name validation of `create_instance` (after `name.strip()`):
`not name or len(name) > 64 or not all(c.isalnum() or c in ('-','_'))`,
negated. -/
def validName (name : String) : Bool :=
  ¬ (name = "" ∨ 64 < name.length ∨
     ¬ name.data.all (fun c => c.isAlphanum || c == '-' || c == '_'))

/-- `create_instance(name, template_key)`: strip the name, validate it,
check for duplicates, resolve the template (table lookup plus an
`isdir` probe supplied by the environment), then copy the tree (success
supplied by the environment), refresh the registry and auto-select when
nothing is selected.  Returns the `(ok, error)` pair and the new state. -/
def create_instance (name templateKey : String) (isDir : String → Bool)
    (copyOk : Bool) (s : MState) : (Bool × Option String) × MState :=
  let name := pyStrip name
  if ¬ validName name then
    ((false, some "Invalid name (alphanumeric + - _ only, max 64 chars)"), s)
  else if (lookupInst s.registry name).isSome then
    ((false, some "Instance already exists"), s)
  else
    match lookupInst TEMPLATES templateKey with
    | none => ((false, some ("Template '" ++ templateKey ++ "' not found or is not a directory")), s)
    | some src =>
      if ¬ isDir src then
        ((false, some ("Template '" ++ templateKey ++ "' not found or is not a directory")), s)
      else if copyOk then
        let s1 : MState := { s with registry := s.registry ++ [(name, instPath name)] }
        let r := get_selected s1
        let s2 := if r.1 = none then set_selected name r.2 else r.2
        ((true, none), s2)
      else
        ((false, some "copytree failed"), s)

/-- The registry after `shutil.rmtree` of an instance directory followed by
`refresh_instances()`: the scan no longer lists the removed name (relative
order of the surviving directories kept). -/
def removeInst (reg : List (String × String)) (n : String) : List (String × String) :=
  reg.filter (fun p => p.1 != n)

/-- Environment for a delete: the teardown command's exit code, whether
`shutil.rmtree` succeeds, and the exception text when it does not. -/
structure DeleteEnv where
  downExit : Int
  rmtreeOk : Bool
  rmtreeErr : String

/-- The selection fix-up both delete paths run after removing the files:
`if get_selected() == name:` reassign to a survivor, or unlink the file when
no instance remains. -/
def deleteFixSelection (name : String) (s : MState) : MState :=
  let r := get_selected s
  if r.1 = some name then
    match r.2.registry with
    | [] => { r.2 with selFile := none }
    | (m, _) :: _ => set_selected m r.2
  else r.2

/-- Synchronous `delete_instance(name)`: teardown (best effort), remove the
directory, refresh, fix the selection.  The returned flag is the function's
success result; the accumulated output text is not modelled. -/
def delete_instance (name : String) (env : DeleteEnv) (s : MState) : Bool × MState :=
  let name := pyStrip name
  match lookupInst s.registry name with
  | none => (false, s)
  | some path =>
    let r := runCmd ⟨["docker", "compose", "down", "--volumes"], some path⟩ env.downExit s
    if env.rmtreeOk then
      let s2 : MState := { r.2 with registry := removeInst r.2.registry name }
      (true, deleteFixSelection name s2)
    else
      (false, r.2)

/-- Asynchronous `_do_delete_async(name)` (body under the action lock). -/
def do_delete_async (name : String) (env : DeleteEnv) (s : MState) : MState :=
  match lookupInst s.registry name with
  | none =>
    let p := progress_stage (progress_reset ["Delete " ++ name]) 0 .error "Instance not found"
    { s with progress := progress_done p false }
  | some path =>
    let s1 : MState :=
      { s with progress := progress_reset ["Stop containers for " ++ name, "Remove " ++ name] }
    let s2 : MState := { s1 with progress := progress_stage s1.progress 0 .running "" }
    let r := runCmd ⟨["docker", "compose", "down", "--volumes"], some path⟩ env.downExit s2
    let p3 := progress_stage r.2.progress 0 (if r.1 = 0 then .done else .error) ""
    let s3 : MState := { r.2 with progress := p3 }
    let s4 : MState := { s3 with progress := progress_stage s3.progress 1 .running "" }
    if env.rmtreeOk then
      let s5 : MState := { s4 with registry := removeInst s4.registry name }
      let s6 := deleteFixSelection name s5
      let p7 := progress_stage s6.progress 1 .done ("Instance " ++ name ++ " removed")
      let s7 : MState := { s6 with progress := p7 }
      { s7 with progress := progress_done s7.progress true }
    else
      let s5 : MState := { s4 with progress := progress_stage s4.progress 1 .error env.rmtreeErr }
      { s5 with progress := progress_done s5.progress false }

-- ── Switch worker ───────────────────────────────────────────────────────────

/-- Environment for a switch: exit codes of the stop and start commands. -/
structure SwitchEnv where
  stopExit : Int
  startExit : Int

/-- The degenerate one-stage path of `_do_switch_to` (target already
selected, or no selection): a single Start stage, selection updated on
success. -/
def switchStart (target tpath : String) (env : SwitchEnv) (s : MState) : MState :=
  let s1 : MState := { s with progress := progress_reset ["Start " ++ target] }
  let s2 : MState := { s1 with progress := progress_stage s1.progress 0 .running "" }
  let r := runCmd ⟨["docker", "compose", "up", "-d"], some tpath⟩ env.startExit s2
  let p3 := progress_stage r.2.progress 0 (if r.1 = 0 then .done else .error) ""
  let s3 : MState := { r.2 with progress := p3 }
  let s4 := if r.1 = 0 then set_selected target s3 else s3
  { s4 with progress := progress_done s4.progress (r.1 == 0) }

/-- The full three-stage path of `_do_switch_to`: Stop current, Start
target, Update selection; any failure halts the remaining stages. -/
def switchFull (target tpath cur cpath : String) (env : SwitchEnv) (s : MState) : MState :=
  let labels := ["Stop " ++ cur, "Start " ++ target, "Update selection"]
  let s1 : MState := { s with progress := progress_reset labels }
  let s2 : MState := { s1 with progress := progress_stage s1.progress 0 .running "" }
  let r := runCmd ⟨["docker", "compose", "down"], some cpath⟩ env.stopExit s2
  let p3 := progress_stage r.2.progress 0 (if r.1 = 0 then .done else .error) ""
  let s3 : MState := { r.2 with progress := p3 }
  if r.1 ≠ 0 then { s3 with progress := progress_done s3.progress false }
  else
    let s4 : MState := { s3 with progress := progress_stage s3.progress 1 .running "" }
    let r2 := runCmd ⟨["docker", "compose", "up", "-d"], some tpath⟩ env.startExit s4
    let p5 := progress_stage r2.2.progress 1 (if r2.1 = 0 then .done else .error) ""
    let s5 : MState := { r2.2 with progress := p5 }
    if r2.1 ≠ 0 then { s5 with progress := progress_done s5.progress false }
    else
      let s6 : MState := { s5 with progress := progress_stage s5.progress 2 .running "" }
      let s7 := set_selected target s6
      let p8 := progress_stage s7.progress 2 .done ("Selected: " ++ target)
      let s8 : MState := { s7 with progress := p8 }
      { s8 with progress := progress_done s8.progress true }

/-- `_do_switch_to(target)` (body under the action lock). -/
def do_switch_to (target : String) (env : SwitchEnv) (s : MState) : MState :=
  match lookupInst s.registry target with
  | none => { s with progress := progress_done s.progress false }
  | some tpath =>
    let r := get_selected s
    match r.1 with
    | none => switchStart target tpath env r.2
    | some cur =>
      if cur = target then switchStart target tpath env r.2
      else switchFull target tpath cur ((lookupInst r.2.registry cur).getD "") env r.2

-- ── Generic action worker ───────────────────────────────────────────────────

/-- Environment for a generic action: the run-state probe result used by
`down_volumes`, and the exit codes of the main and restart commands. -/
structure ActionEnv where
  wasRunning : Bool
  mainExit : Int
  restartExit : Int

/-- The stage label `_do_action_async` uses for each action name. -/
def actionLabel (action name : String) : String :=
  if action = "pull" then "Pull images for " ++ name
  else if action = "stop" then "Stop " ++ name
  else if action = "start" then "Start " ++ name
  else if action = "down_volumes" then "Clear data for " ++ name
  else action

/-- The command `_do_action_async` maps each action name to. -/
def actionCmd (action : String) : Option (List String) :=
  if action = "pull" then some ["docker", "compose", "pull"]
  else if action = "stop" then some ["docker", "compose", "down"]
  else if action = "start" then some ["docker", "compose", "up", "-d"]
  else if action = "down_volumes" then some ["docker", "compose", "down", "--volumes"]
  else none

/-- The `docker compose ps` probe issued by `compose_status`, as recorded in
the command trace; its boolean result is supplied by the environment. -/
def psProbe (cwd : String) : Cmd :=
  ⟨["docker", "compose", "ps", "--format", "json"], some cwd⟩

/-- The error record `_do_action_async` produces when no valid instance can
be resolved. -/
def actionNoInstance (action : String) (s : MState) : MState :=
  let p := progress_stage (progress_reset [action]) 0 .error "No valid instance selected"
  { s with progress := progress_done p false }

/-- The body of `_do_action_async` once a registered instance `u` with
directory `cwd` has been resolved: unknown actions error out; for
`down_volumes` the run-state is probed first and a Restart stage appended
when the instance was running; the mapped command runs, and on success the
optional restart runs, its exit code deciding the final `ok`. -/
def do_action_resolved (action u cwd : String) (env : ActionEnv) (s : MState) : MState :=
  let label := actionLabel action u
  match actionCmd action with
  | none =>
    let p := progress_stage (progress_reset [label]) 0 .error "Unknown action"
    { s with progress := progress_done p false }
  | some cmd =>
    let probe : Bool × MState :=
      if action = "down_volumes" then
        (env.wasRunning, { s with trace := s.trace ++ [psProbe cwd] })
      else (false, s)
    let stages := if action = "down_volumes" ∧ probe.1
                  then [label, "Restart " ++ u] else [label]
    let s1 : MState := { probe.2 with progress := progress_reset stages }
    let s2 : MState := { s1 with progress := progress_stage s1.progress 0 .running "" }
    let r := runCmd ⟨cmd, some cwd⟩ env.mainExit s2
    let p3 := progress_stage r.2.progress 0 (if r.1 = 0 then .done else .error) ""
    let s3 : MState := { r.2 with progress := p3 }
    if r.1 ≠ 0 then { s3 with progress := progress_done s3.progress false }
    else if action = "down_volumes" ∧ probe.1 then
      let s4 : MState := { s3 with progress := progress_stage s3.progress 1 .running "" }
      let r2 := runCmd ⟨["docker", "compose", "up", "-d"], some cwd⟩ env.restartExit s4
      let p5 := progress_stage r2.2.progress 1 (if r2.1 = 0 then .done else .error) ""
      let s5 : MState := { r2.2 with progress := p5 }
      { s5 with progress := progress_done s5.progress (r2.1 == 0) }
    else
      { s3 with progress := progress_done s3.progress (r.1 == 0) }

/-- `_do_action_async(action, target)` (body under the action lock).  An
invalid or absent target falls back to the selected instance; only when no
instance resolves at all does the operation fail, asynchronously. -/
def do_action_async (action : String) (target : Option String) (env : ActionEnv)
    (s : MState) : MState :=
  let rsel : Option String × MState :=
    match target with
    | some t =>
      if t ≠ "" ∧ (lookupInst s.registry t).isSome then (some t, s) else get_selected s
    | none => get_selected s
  match rsel.1 with
  | none => actionNoInstance action rsel.2
  | some u =>
    if u = "" then actionNoInstance action rsel.2
    else
      match lookupInst rsel.2.registry u with
      | none => actionNoInstance action rsel.2
      | some cwd => do_action_resolved action u cwd env rsel.2

-- ── WiFi worker ─────────────────────────────────────────────────────────────

/-- Environment for the WiFi apply: per-sub-step exit codes (indexed by
position in the command list), commit/reload/restart exit codes, and the
run-state probe result for the selected instance. -/
structure WifiEnv where
  setExit : Nat → Int
  commitExit : Int
  reloadExit : Int
  restartExit : Int
  selRunning : Bool

/-- The `uci set` command list `_do_wifi_async` builds from the non-empty
fields. -/
def wifiSetCmds (hsSsid hsPsk staSsid staPsk : String) : List (List String) :=
  (if hsSsid ≠ "" then
     [["uci", "set", "wireless.default_radio1.ssid=" ++ hsSsid],
      ["uci", "set", "wireless.default_radio2.ssid=" ++ hsSsid]] else []) ++
  (if hsPsk ≠ "" then
     [["uci", "set", "wireless.default_radio1.key=" ++ hsPsk],
      ["uci", "set", "wireless.default_radio2.key=" ++ hsPsk]] else []) ++
  (if staSsid ≠ "" then [["uci", "set", "wireless.default_radio0.ssid=" ++ staSsid]] else []) ++
  (if staPsk ≠ "" then [["uci", "set", "wireless.default_radio0.key=" ++ staPsk]] else [])

/-- Stage 0 of the WiFi apply: run every `uci set` command in order, logging
each, never stopping early; the flag is true iff every exit code was zero. -/
def runSetCmds (env : WifiEnv) : List (List String) → Nat → MState → Bool × MState
  | [], _, s => (true, s)
  | c :: rest, i, s =>
    let line := "$ " ++ String.intercalate " " c
    let s0 : MState := { s with progress := progress_stage s.progress 0 .running line }
    let r := runCmd ⟨c, none⟩ (env.setExit i) s0
    let rr := runSetCmds env rest (i + 1) r.2
    ((r.1 == 0) && rr.1, rr.2)

/-- `_do_wifi_async(hs_ssid, hs_psk, sta_ssid, sta_psk)` (body under the
action lock). -/
def do_wifi_async (hsSsid hsPsk staSsid staPsk : String) (env : WifiEnv) (s : MState) : MState :=
  let cmds := wifiSetCmds hsSsid hsPsk staSsid staPsk
  if cmds = [] then
    let p := progress_stage (progress_reset ["Apply WiFi"]) 0 .error "Nothing to set."
    { s with progress := progress_done p false }
  else
    let rsel := get_selected s
    let probe : Bool × MState :=
      match rsel.1 with
      | some sel =>
        let cwd := (lookupInst rsel.2.registry sel).getD ""
        (env.selRunning, { rsel.2 with trace := rsel.2.trace ++ [psProbe cwd] })
      | none => (false, rsel.2)
    let stages := ["Set WiFi parameters", "Commit & reload WiFi"] ++
      (match rsel.1 with
       | some sel => if probe.1 then ["Restart " ++ sel ++ " compose"] else []
       | none => [])
    let s1 : MState := { probe.2 with progress := progress_reset stages }
    let s2 : MState := { s1 with progress := progress_stage s1.progress 0 .running "" }
    let rset := runSetCmds env cmds 0 s2
    let p3 := progress_stage rset.2.progress 0 (if rset.1 then .done else .error) ""
    let s3 : MState := { rset.2 with progress := p3 }
    if ¬ rset.1 then { s3 with progress := progress_done s3.progress false }
    else
      let s4 : MState :=
        { s3 with progress := progress_stage s3.progress 1 .running "$ uci commit wireless" }
      let r := runCmd ⟨["uci", "commit", "wireless"], none⟩ env.commitExit s4
      if r.1 ≠ 0 then
        let p5 := progress_stage r.2.progress 1 .error "uci commit failed"
        { r.2 with progress := progress_done p5 false }
      else
        let s5 : MState :=
          { r.2 with progress := progress_stage r.2.progress 1 .running "$ wifi reload" }
        let r2 := runCmd ⟨["wifi", "reload"], none⟩ env.reloadExit s5
        let s6 : MState := { r2.2 with progress := progress_stage r2.2.progress 1 .done "" }
        let s7 : MState :=
          if 2 < stages.length ∧ rsel.1.isSome then
            let sel := rsel.1.getD ""
            let line := "$ docker compose restart (" ++ sel ++ ")"
            let s7a : MState := { s6 with progress := progress_stage s6.progress 2 .running "" }
            let s7b : MState := { s7a with progress := progress_stage s7a.progress 2 .running line }
            let cwd := (lookupInst s7b.registry sel).getD ""
            let r3 := runCmd ⟨["docker", "compose", "restart"], some cwd⟩ env.restartExit s7b
            let p7 := progress_stage r3.2.progress 2 (if r3.1 = 0 then .done else .error) ""
            { r3.2 with progress := p7 }
          else s6
        { s7 with progress := progress_done s7.progress true }

-- ── API boundary ────────────────────────────────────────────────────────────

/-- Response body of a mutating POST endpoint. -/
structure ApiResp where
  ok : Bool
  error : Option String
  deriving DecidableEq

/-- The `/api/action` branch of `do_POST`: a non-blocking
acquire-then-release busy check, then the worker is spawned (modelled by
running it sequentially) and `{"ok": true}` is sent at once; the response
never depends on the worker's outcome, and no check of the named instance
is performed at the boundary. -/
def api_action (lockHeld : Bool) (action : String) (target : Option String)
    (env : ActionEnv) (s : MState) : ApiResp × MState :=
  if lockHeld then ({ ok := false, error := some "Action already running" }, s)
  else ({ ok := true, error := none }, do_action_async action target env s)

-- ── Action-lock discipline at the API boundary ──────────────────────────────

/-- Phases of one mutating request: received (`arrived`), rejected with the
busy error at the boundary check, accepted with its worker thread spawned
but the lock not yet taken (`spawned`), worker holding the lock and
executing (`acquired`), worker finished and lock released (`finished`). -/
inductive Phase
  | arrived
  | rejected
  | spawned
  | acquired
  | finished
  deriving DecidableEq

/-- Two concurrent mutating requests (A and B) racing for `_action_lock`. -/
structure LockSys where
  pa : Phase
  pb : Phase
  lock : Bool
  deriving DecidableEq

/-- Interleaving semantics of the source's lock usage.  The boundary check
(`_action_lock.acquire(blocking=False)` immediately followed by `release`,
or `.locked()` for `/api/switch_to`) atomically observes the lock: if free,
the request is accepted and a worker thread is spawned; if held, the
request is rejected.  The spawned worker then performs a *blocking*
`with _action_lock:` — it can take the lock only when free, and releases it
when the operation ends. -/
inductive LockStep : LockSys → LockSys → Prop
  | checkA_free (s : LockSys) : s.pa = .arrived → s.lock = false →
      LockStep s { s with pa := .spawned }
  | checkA_busy (s : LockSys) : s.pa = .arrived → s.lock = true →
      LockStep s { s with pa := .rejected }
  | acquireA (s : LockSys) : s.pa = .spawned → s.lock = false →
      LockStep s { s with pa := .acquired, lock := true }
  | finishA (s : LockSys) : s.pa = .acquired →
      LockStep s { s with pa := .finished, lock := false }
  | checkB_free (s : LockSys) : s.pb = .arrived → s.lock = false →
      LockStep s { s with pb := .spawned }
  | checkB_busy (s : LockSys) : s.pb = .arrived → s.lock = true →
      LockStep s { s with pb := .rejected }
  | acquireB (s : LockSys) : s.pb = .spawned → s.lock = false →
      LockStep s { s with pb := .acquired, lock := true }
  | finishB (s : LockSys) : s.pb = .acquired →
      LockStep s { s with pb := .finished, lock := false }

/-- Initial state: both requests received, lock free. -/
def lockInit : LockSys := { pa := .arrived, pb := .arrived, lock := false }

/-- Reachability from the initial state. -/
def LockReach (s : LockSys) : Prop :=
  Relation.ReflTransGen LockStep lockInit s

/-- A state in which one operation is in flight while the other request has
been accepted at the boundary and its worker is blocked waiting on the
lock — a queued operation. -/
def QueuedBehindLock (s : LockSys) : Prop :=
  (s.pa = .acquired ∧ s.pb = .spawned) ∨ (s.pb = .acquired ∧ s.pa = .spawned)

/-- Inductive invariant of the lock system: the lock is held exactly when
some worker is executing, and never by both. -/
def LockInv (s : LockSys) : Prop :=
  (s.lock = true ↔ (s.pa = .acquired ∨ s.pb = .acquired)) ∧
  ¬ (s.pa = .acquired ∧ s.pb = .acquired)

theorem lockInv_init : LockInv lockInit := by
  constructor <;> simp [lockInit]

theorem lockInv_step {s s' : LockSys} (h : LockStep s s') (hs : LockInv s) : LockInv s' := by
  cases h <;> simp_all [LockInv]

theorem lockInv_of_reach {s : LockSys} (h : LockReach s) : LockInv s := by
  induction h with
  | refl => exact lockInv_init
  | tail _ hstep ih => exact lockInv_step hstep ih

/-- A rejected request stays rejected: no transition moves a request out of
the `rejected` phase. -/
theorem rejected_stays_a {s s' : LockSys} (h : Relation.ReflTransGen LockStep s s')
    (hr : s.pa = .rejected) : s'.pa = .rejected := by
  induction h with
  | refl => exact hr
  | tail _ hstep ih =>
    cases hstep <;> simp_all

theorem rejected_stays_b {s s' : LockSys} (h : Relation.ReflTransGen LockStep s s')
    (hr : s.pb = .rejected) : s'.pb = .rejected := by
  induction h with
  | refl => exact hr
  | tail _ hstep ih =>
    cases hstep <;> simp_all

-- ── Lemmas: registry lookup and removal ─────────────────────────────────────

theorem lookupInst_isSome_iff (reg : List (String × String)) (v : String) :
    (lookupInst reg v).isSome ↔ ∃ x ∈ reg, x.1 = v := by
  simp [lookupInst, List.find?_isSome]

theorem lookupInst_removeInst_self (reg : List (String × String)) (n : String) :
    lookupInst (removeInst reg n) n = none := by
  rw [← Option.not_isSome_iff_eq_none]
  intro h
  rw [lookupInst_isSome_iff] at h
  obtain ⟨x, hx, hx1⟩ := h
  simp [removeInst, List.mem_filter] at hx
  exact hx.2 hx1

theorem lookupInst_remove_isSome {reg : List (String × String)} {n v : String}
    (h : (lookupInst (removeInst reg n) v).isSome) :
    (lookupInst reg v).isSome ∧ v ≠ n := by
  rw [lookupInst_isSome_iff] at h
  obtain ⟨x, hx, hx1⟩ := h
  simp [removeInst, List.mem_filter] at hx
  constructor
  · rw [lookupInst_isSome_iff]; exact ⟨x, hx.1, hx1⟩
  · rw [← hx1]; exact hx.2

theorem head_fst_mem_map {reg : List (String × String)} {m : String}
    (h : reg.head?.map Prod.fst = some m) : m ∈ reg.map Prod.fst := by
  cases reg with
  | nil => simp at h
  | cons a t => simp at h; simp [← h]

theorem resolveSel_none (reg : List (String × String)) :
    resolveSel reg none = reg.head?.map (fun p => p.1) := rfl

theorem resolveSel_some (reg : List (String × String)) (v : String) :
    resolveSel reg (some v) =
      if v ≠ "" ∧ (lookupInst reg v).isSome then some v
      else reg.head?.map (fun p => p.1) := rfl

theorem resolveSel_isSome {reg : List (String × String)} {f : Option String} {m : String}
    (h : resolveSel reg f = some m) : (lookupInst reg m).isSome := by
  cases f with
  | none =>
    rw [resolveSel_none] at h
    cases reg with
    | nil => simp at h
    | cons a t =>
      obtain ⟨n, p⟩ := a
      simp at h
      subst h
      simp [lookupInst_cons_self]
  | some v =>
    rw [resolveSel_some] at h
    by_cases hv : v ≠ "" ∧ (lookupInst reg v).isSome
    · rw [if_pos hv] at h
      obtain rfl : v = m := by injection h
      exact hv.2
    · rw [if_neg hv] at h
      cases reg with
      | nil => simp at h
      | cons a t =>
        obtain ⟨n, p⟩ := a
        simp at h
        subst h
        simp [lookupInst_cons_self]

/-- After removing the resolved selection from the registry, the old
selection file no longer resolves: resolution falls through to the head of
the surviving registry. -/
theorem resolveSel_after_remove (reg : List (String × String)) (file : Option String)
    (name : String) (h : resolveSel reg file = some name) :
    resolveSel (removeInst reg name) file = (removeInst reg name).head?.map Prod.fst := by
  cases file with
  | none => rfl
  | some v =>
    rw [resolveSel_some, if_neg]
    intro ⟨hv, hsome⟩
    obtain ⟨hmem, hne⟩ := lookupInst_remove_isSome hsome
    rw [resolveSel_some, if_pos ⟨hv, hmem⟩] at h
    obtain rfl : v = name := by injection h
    exact hne rfl

-- ── Lemmas: the post-delete selection fix-up ────────────────────────────────

theorem deleteFixSelection_registry (name : String) (st : MState) :
    (deleteFixSelection name st).registry = st.registry := by
  simp only [deleteFixSelection]
  split
  · split
    · simp [get_selected_registry]
    · rw [set_selected_registry, get_selected_registry]
  · rw [get_selected_registry]

theorem deleteFixSelection_trace (name : String) (st : MState) :
    (deleteFixSelection name st).trace = st.trace := by
  simp only [deleteFixSelection]
  split
  · split
    · simp [get_selected_trace]
    · rw [set_selected_trace, get_selected_trace]
  · rw [get_selected_trace]

theorem deleteFixSelection_progress (name : String) (st : MState) :
    (deleteFixSelection name st).progress = st.progress := by
  simp only [deleteFixSelection]
  split
  · split
    · simp [get_selected_progress]
    · rw [set_selected_progress, get_selected_progress]
  · rw [get_selected_progress]

/-- When the deleted name is already gone from the registry, the fix-up
reduces to `get_selected`'s own repair: the branch comparing the resolved
selection to the deleted name never fires, and the resolved selection is
unchanged by the whole fix-up. -/
theorem deleteFixSelection_resolve (name : String) (st : MState)
    (hgone : lookupInst st.registry name = none) :
    resolveSel (deleteFixSelection name st).registry (deleteFixSelection name st).selFile
      = resolveSel st.registry st.selFile := by
  simp only [deleteFixSelection]
  have hb : (get_selected st).1 ≠ some name := by
    rw [get_selected_fst]
    intro hc
    have := resolveSel_isSome hc
    rw [hgone] at this
    cases this
  rw [if_neg hb, get_selected_registry, get_selected_resolve_again]

-- ── Lemmas: the switch worker ───────────────────────────────────────────────

theorem switchStart_stages (target tpath : String) (env : SwitchEnv) (s : MState) :
    (switchStart target tpath env s).progress.stages =
      [⟨"Start " ++ target, if env.startExit = 0 then .done else .error⟩] := by
  unfold switchStart
  by_cases h : env.startExit = 0 <;>
    simp [h, runCmd, progress_reset, progress_stage, progress_done, setStage,
      set_selected_progress]

theorem switchStart_trace (target tpath : String) (env : SwitchEnv) (s : MState) :
    (switchStart target tpath env s).trace =
      s.trace ++ [⟨["docker", "compose", "up", "-d"], some tpath⟩] := by
  unfold switchStart
  by_cases h : env.startExit = 0 <;> simp [h, runCmd, set_selected_trace]

theorem switchFull_stop_fail (target tpath cur cpath : String) (env : SwitchEnv) (s : MState)
    (h : env.stopExit ≠ 0) :
    switchFull target tpath cur cpath env s =
      { s with
        progress :=
          { active := false,
            stages := [⟨"Stop " ++ cur, .error⟩, ⟨"Start " ++ target, .pending⟩,
                       ⟨"Update selection", .pending⟩],
            log := [], done := true, ok := false },
        trace := s.trace ++ [⟨["docker", "compose", "down"], some cpath⟩] } := by
  unfold switchFull
  simp [h, runCmd, progress_reset, progress_stage, progress_done, setStage]

-- ── Claim C2 ────────────────────────────────────────────────────────────────

/-- Claim C2: for a registered target, `_do_switch_to` with the target
already selected (or with no resolvable selection) takes the degenerate
path: the progress record holds exactly one stage, labelled `Start target`,
and the only external command run is the start command — no Stop command is
ever issued on this path. -/
theorem C2_switch_degenerate (s : MState) (target tpath : String) (env : SwitchEnv)
    (hreg : lookupInst s.registry target = some tpath)
    (hsel : (get_selected s).1 = some target ∨ (get_selected s).1 = none) :
    (do_switch_to target env s).progress.stages.map Stage.label = ["Start " ++ target] ∧
    (do_switch_to target env s).trace =
      s.trace ++ [⟨["docker", "compose", "up", "-d"], some tpath⟩] := by
  have hstages := switchStart_stages target tpath env (get_selected s).2
  have htrace := switchStart_trace target tpath env (get_selected s).2
  rw [get_selected_trace] at htrace
  have hred : do_switch_to target env s = switchStart target tpath env (get_selected s).2 := by
    simp only [do_switch_to, hreg]
    set_option linter.unnecessarySeqFocus false in
    rcases hsel with h | h <;> rw [h] <;> simp
  rw [hred, hstages, htrace]
  exact ⟨by simp, rfl⟩

/-- Witness for C2: registry `[a]`, selection file `a`, switch to `a`. -/
theorem C2_switch_degenerate_witness :
    (do_switch_to "a" ⟨0, 0⟩ ⟨[("a", "pa")], some "a", initProgress, []⟩).progress.stages.map
        Stage.label = ["Start " ++ "a"] ∧
    (do_switch_to "a" ⟨0, 0⟩ ⟨[("a", "pa")], some "a", initProgress, []⟩).trace =
      ([] : List Cmd) ++ [⟨["docker", "compose", "up", "-d"], some "pa"⟩] :=
  C2_switch_degenerate ⟨[("a", "pa")], some "a", initProgress, []⟩ "a" "pa" ⟨0, 0⟩ rfl
    (Or.inl rfl)

-- ── Claim C3 ────────────────────────────────────────────────────────────────

/-- Claim C3: switching to a different registered target when the Stop
command exits non-zero finishes with `ok = false`, leaves the Start and
Update-selection stages `pending`, performs no selection write after the
initial read, and the selection still resolves to the previously selected
instance. -/
theorem C3_switch_stop_failure (s : MState) (target tpath cur : String) (env : SwitchEnv)
    (hreg : lookupInst s.registry target = some tpath)
    (hsel : (get_selected s).1 = some cur)
    (hne : cur ≠ target)
    (hstop : env.stopExit ≠ 0) :
    (do_switch_to target env s).progress.done = true ∧
    (do_switch_to target env s).progress.ok = false ∧
    (do_switch_to target env s).progress.stages =
      [⟨"Stop " ++ cur, .error⟩, ⟨"Start " ++ target, .pending⟩,
       ⟨"Update selection", .pending⟩] ∧
    (do_switch_to target env s).selFile = (get_selected s).2.selFile ∧
    resolveSel (do_switch_to target env s).registry (do_switch_to target env s).selFile
      = some cur := by
  have hred : do_switch_to target env s
      = switchFull target tpath cur ((lookupInst (get_selected s).2.registry cur).getD "")
          env (get_selected s).2 := by
    simp only [do_switch_to, hreg]
    rw [hsel]
    simp [hne]
  rw [hred, switchFull_stop_fail _ _ _ _ _ _ hstop]
  refine ⟨rfl, rfl, rfl, rfl, ?_⟩
  show resolveSel (get_selected s).2.registry (get_selected s).2.selFile = some cur
  rw [get_selected_registry, get_selected_resolve_again, ← get_selected_fst, hsel]

/-- Witness for C3: registry `[a, b]`, selection `a`, switch to `b` with the
Stop command failing (exit 1). -/
theorem C3_switch_stop_failure_witness :
    (do_switch_to "b" ⟨1, 0⟩ ⟨[("a", "pa"), ("b", "pb")], some "a", initProgress, []⟩).progress.done
        = true ∧
    (do_switch_to "b" ⟨1, 0⟩ ⟨[("a", "pa"), ("b", "pb")], some "a", initProgress, []⟩).progress.ok
        = false ∧
    (do_switch_to "b" ⟨1, 0⟩ ⟨[("a", "pa"), ("b", "pb")], some "a", initProgress, []⟩).progress.stages
        = [⟨"Stop " ++ "a", .error⟩, ⟨"Start " ++ "b", .pending⟩,
           ⟨"Update selection", .pending⟩] ∧
    (do_switch_to "b" ⟨1, 0⟩ ⟨[("a", "pa"), ("b", "pb")], some "a", initProgress, []⟩).selFile
        = (get_selected ⟨[("a", "pa"), ("b", "pb")], some "a", initProgress, []⟩).2.selFile ∧
    resolveSel (do_switch_to "b" ⟨1, 0⟩ ⟨[("a", "pa"), ("b", "pb")], some "a", initProgress, []⟩).registry
        (do_switch_to "b" ⟨1, 0⟩ ⟨[("a", "pa"), ("b", "pb")], some "a", initProgress, []⟩).selFile
      = some "a" :=
  C3_switch_stop_failure ⟨[("a", "pa"), ("b", "pb")], some "a", initProgress, []⟩ "b" "pb" "a"
    ⟨1, 0⟩ rfl rfl (by decide) (by decide)

-- ── Claim C9 ────────────────────────────────────────────────────────────────

/-- Claim C9: whenever the selection file is missing (`none`), empty, or
names something outside a non-empty registry, `get_selected` both returns
the first registry member and writes that member's name to the selection
file — a persisted-state mutation on a read path. -/
theorem C9_get_selected_repairs (s : MState) (n p : String) (t : List (String × String))
    (hreg : s.registry = (n, p) :: t)
    (hn : n ≠ "")
    (hbad : s.selFile = none ∨
      ∃ v, s.selFile = some v ∧ (v = "" ∨ lookupInst s.registry v = none)) :
    (get_selected s).1 = some n ∧ (get_selected s).2.selFile = some n := by
  obtain ⟨reg, file, prog, tr⟩ := s
  dsimp only at hreg hbad
  subst hreg
  rcases hbad with hf | ⟨v, hf, hv⟩
  · subst hf
    simp [get_selected, set_selected, lookupInst_cons_self, hn]
  · subst hf
    have hcond : ¬ (v ≠ "" ∧ (lookupInst ((n, p) :: t) v).isSome) := by
      rcases hv with hv | hv
      · intro hc; exact hc.1 hv
      · intro hc; rw [hv] at hc; exact absurd hc.2 (by decide)
    simp [get_selected, hcond, set_selected, lookupInst_cons_self, hn]

/-- Witness for C9: registry `[a]` with the selection file missing. -/
theorem C9_get_selected_repairs_witness :
    (get_selected ⟨[("a", "pa")], none, initProgress, []⟩).1 = some "a" ∧
    (get_selected ⟨[("a", "pa")], none, initProgress, []⟩).2.selFile = some "a" :=
  C9_get_selected_repairs ⟨[("a", "pa")], none, initProgress, []⟩ "a" "pa" [] rfl (by decide)
    (Or.inl rfl)

-- ── Claim C10 ───────────────────────────────────────────────────────────────

/-- Claim C10: in the asynchronous delete, when the teardown command fails
(non-zero exit) but the directory removal succeeds, the operation still
finishes with `ok = true` while the teardown stage is recorded as `error`:
a finished, successful progress record can contain an error stage. -/
theorem C10_delete_ok_with_error_stage (s : MState) (name path : String) (env : DeleteEnv)
    (hpath : lookupInst s.registry name = some path)
    (hdown : env.downExit ≠ 0)
    (hrm : env.rmtreeOk = true) :
    (do_delete_async name env s).progress.done = true ∧
    (do_delete_async name env s).progress.ok = true ∧
    (do_delete_async name env s).progress.stages =
      [⟨"Stop containers for " ++ name, .error⟩, ⟨"Remove " ++ name, .done⟩] := by
  simp only [do_delete_async, hpath]
  simp [hrm, hdown, runCmd, progress_reset, progress_stage, progress_done, setStage,
    deleteFixSelection_progress]

/-- Witness for C10: registry `[a]`, teardown exits 1, removal succeeds. -/
theorem C10_delete_ok_with_error_stage_witness :
    (do_delete_async "a" ⟨1, true, "boom"⟩ ⟨[("a", "pa")], some "a", initProgress, []⟩).progress.done
        = true ∧
    (do_delete_async "a" ⟨1, true, "boom"⟩ ⟨[("a", "pa")], some "a", initProgress, []⟩).progress.ok
        = true ∧
    (do_delete_async "a" ⟨1, true, "boom"⟩ ⟨[("a", "pa")], some "a", initProgress, []⟩).progress.stages
        = [⟨"Stop containers for " ++ "a", .error⟩, ⟨"Remove " ++ "a", .done⟩] :=
  C10_delete_ok_with_error_stage ⟨[("a", "pa")], some "a", initProgress, []⟩ "a" "pa"
    ⟨1, true, "boom"⟩ rfl (by decide) rfl

-- ── Claim C4 ────────────────────────────────────────────────────────────────

theorem head_resolution (l : List (String × String)) :
    (l ≠ [] → ∃ m, l.head?.map Prod.fst = some m ∧ m ∈ l.map Prod.fst) ∧
    (l = [] → l.head?.map Prod.fst = none) := by
  cases l <;> simp

/-- Claim C4: deleting the instance the selection currently resolves to
(with the directory removal succeeding) leaves the selection resolving to
one of the surviving instances when any remain, and resolving to nothing
when none remain — on both the synchronous and the asynchronous delete
path. -/
theorem C4_delete_selection (s : MState) (name path : String) (env : DeleteEnv)
    (hpath : lookupInst s.registry name = some path)
    (hsel : resolveSel s.registry s.selFile = some name)
    (hrm : env.rmtreeOk = true)
    (htrim : pyStrip name = name) :
    ((removeInst s.registry name ≠ [] →
        ∃ m, resolveSel (delete_instance name env s).2.registry
              (delete_instance name env s).2.selFile = some m ∧
            m ∈ (removeInst s.registry name).map Prod.fst) ∧
      (removeInst s.registry name = [] →
        resolveSel (delete_instance name env s).2.registry
          (delete_instance name env s).2.selFile = none)) ∧
    ((removeInst s.registry name ≠ [] →
        ∃ m, resolveSel (do_delete_async name env s).registry
              (do_delete_async name env s).selFile = some m ∧
            m ∈ (removeInst s.registry name).map Prod.fst) ∧
      (removeInst s.registry name = [] →
        resolveSel (do_delete_async name env s).registry
          (do_delete_async name env s).selFile = none)) := by
  have hd := head_resolution (removeInst s.registry name)
  have hsyncres : resolveSel (delete_instance name env s).2.registry
      (delete_instance name env s).2.selFile
      = (removeInst s.registry name).head?.map Prod.fst := by
    simp only [delete_instance, htrim, hpath, runCmd, hrm, if_true]
    rw [deleteFixSelection_resolve]
    · dsimp only
      exact resolveSel_after_remove s.registry s.selFile name hsel
    · dsimp only
      exact lookupInst_removeInst_self s.registry name
  have hasyncres : resolveSel (do_delete_async name env s).registry
      (do_delete_async name env s).selFile
      = (removeInst s.registry name).head?.map Prod.fst := by
    simp only [do_delete_async, hpath, runCmd, hrm, if_true, progress_reset, progress_stage,
      progress_done]
    rw [deleteFixSelection_resolve]
    · dsimp only
      exact resolveSel_after_remove s.registry s.selFile name hsel
    · dsimp only
      exact lookupInst_removeInst_self s.registry name
  refine ⟨⟨?_, ?_⟩, ⟨?_, ?_⟩⟩
  · intro hne
    obtain ⟨m, hm1, hm2⟩ := hd.1 hne
    exact ⟨m, hsyncres.trans hm1, hm2⟩
  · intro hnil
    rw [hsyncres, hnil]; rfl
  · intro hne
    obtain ⟨m, hm1, hm2⟩ := hd.1 hne
    exact ⟨m, hasyncres.trans hm1, hm2⟩
  · intro hnil
    rw [hasyncres, hnil]; rfl

/-- Witness for C4: registry `[a, b]`, selection `a`, delete `a`; `b`
survives. -/
theorem C4_delete_selection_witness :
    ((removeInst [("a", "pa"), ("b", "pb")] "a" ≠ [] →
        ∃ m, resolveSel (delete_instance "a" ⟨0, true, ""⟩
                ⟨[("a", "pa"), ("b", "pb")], some "a", initProgress, []⟩).2.registry
              (delete_instance "a" ⟨0, true, ""⟩
                ⟨[("a", "pa"), ("b", "pb")], some "a", initProgress, []⟩).2.selFile = some m ∧
            m ∈ (removeInst [("a", "pa"), ("b", "pb")] "a").map Prod.fst) ∧
      (removeInst [("a", "pa"), ("b", "pb")] "a" = [] →
        resolveSel (delete_instance "a" ⟨0, true, ""⟩
            ⟨[("a", "pa"), ("b", "pb")], some "a", initProgress, []⟩).2.registry
          (delete_instance "a" ⟨0, true, ""⟩
            ⟨[("a", "pa"), ("b", "pb")], some "a", initProgress, []⟩).2.selFile = none)) ∧
    ((removeInst [("a", "pa"), ("b", "pb")] "a" ≠ [] →
        ∃ m, resolveSel (do_delete_async "a" ⟨0, true, ""⟩
                ⟨[("a", "pa"), ("b", "pb")], some "a", initProgress, []⟩).registry
              (do_delete_async "a" ⟨0, true, ""⟩
                ⟨[("a", "pa"), ("b", "pb")], some "a", initProgress, []⟩).selFile = some m ∧
            m ∈ (removeInst [("a", "pa"), ("b", "pb")] "a").map Prod.fst) ∧
      (removeInst [("a", "pa"), ("b", "pb")] "a" = [] →
        resolveSel (do_delete_async "a" ⟨0, true, ""⟩
            ⟨[("a", "pa"), ("b", "pb")], some "a", initProgress, []⟩).registry
          (do_delete_async "a" ⟨0, true, ""⟩
            ⟨[("a", "pa"), ("b", "pb")], some "a", initProgress, []⟩).selFile = none)) :=
  C4_delete_selection ⟨[("a", "pa"), ("b", "pb")], some "a", initProgress, []⟩ "a" "pa"
    ⟨0, true, ""⟩ rfl rfl rfl (by decide)

-- ── Claim C5 ────────────────────────────────────────────────────────────────

/-- The spec's name-character class `[A-Za-z0-9_-]`, written from the spec's
words for comparison with the source's validation. -/
def specCharOk (c : Char) : Bool :=
  ('A' ≤ c ∧ c ≤ 'Z') ∨ ('a' ≤ c ∧ c ≤ 'z') ∨ ('0' ≤ c ∧ c ≤ '9') ∨ c = '-' ∨ c = '_'

/-- The spec's instance-name pattern `[A-Za-z0-9_-]{1,64}`, written from the
spec's words for comparison with the source's validation. -/
def specNamePattern (s : String) : Bool :=
  1 ≤ s.length ∧ s.length ≤ 64 ∧ s.data.all specCharOk

theorem charOk_eq_spec (c : Char) :
    (c.isAlphanum || c == '-' || c == '_') = specCharOk c := by
  apply Bool.eq_iff_iff.mpr
  simp [Char.isAlphanum, Char.isAlpha, Char.isDigit, Char.isUpper, Char.isLower, specCharOk]
  constructor
  · rintro ((⟨h1, h2⟩ | ⟨h1, h2⟩) | ⟨h1, h2⟩) <;> tauto
  · tauto

theorem string_eq_empty_iff (s : String) : s = "" ↔ s.data = [] := by
  constructor
  · intro h; rw [h]
  · intro h
    cases s
    simp only at h
    rw [h]

/-- The source's validation accepts exactly the names matching the spec's
pattern (at ASCII fidelity: Python's Unicode `isalnum` is modelled by the
ASCII `Char.isAlphanum`). -/
theorem validName_eq_spec (s : String) : validName s = specNamePattern s := by
  apply Bool.eq_iff_iff.mpr
  simp only [validName, specNamePattern, not_or, charOk_eq_spec, decide_eq_true_eq,
    Bool.and_eq_true, Bool.or_eq_true, Nat.not_lt, string_eq_empty_iff]
  constructor
  · rintro ⟨h1, h2, h3⟩
    refine ⟨?_, h2, by simpa using h3⟩
    have hne : s.data.length ≠ 0 := fun hc => h1 (List.length_eq_zero.mp hc)
    show 1 ≤ s.data.length
    omega
  · rintro ⟨h1, h2, h3⟩
    refine ⟨?_, h2, by simpa using h3⟩
    intro hc
    have hz : s.length = 0 := by show s.data.length = 0; rw [hc]; rfl
    omega

/-- Claim C5, counterexample: `create_instance " a " "prod"` (existing
template directory, successful copy) succeeds although the name `" a "`
does not match the spec's pattern `[A-Za-z0-9_-]{1,64}` — the source strips
surrounding whitespace before validating, so success does not require the
passed name itself to match the pattern. -/
theorem C5_counterexample :
    (create_instance " a " "prod" (fun _ => true) true
        ⟨[], none, initProgress, []⟩).1 = (true, none) ∧
    specNamePattern " a " = false := by
  constructor
  · decide
  · decide

/-- Claim C5 (amended): `create_instance` succeeds only if the *stripped*
name matches the pattern, is not yet registered, and the template key
resolves to an existing directory; and whenever any of these validation
checks fails, the call returns an error and the machine state — registry,
selection file, command trace — is unchanged (no filesystem mutation). -/
theorem C5_create_validation (name templateKey : String) (isDir : String → Bool)
    (copyOk : Bool) (s : MState) :
    ((create_instance name templateKey isDir copyOk s).1.1 = true →
      specNamePattern (pyStrip name) = true ∧
      lookupInst s.registry (pyStrip name) = none ∧
      ∃ src, lookupInst TEMPLATES templateKey = some src ∧ isDir src = true) ∧
    ((specNamePattern (pyStrip name) = false ∨
        (lookupInst s.registry (pyStrip name)).isSome ∨
        lookupInst TEMPLATES templateKey = none ∨
        (∀ src, lookupInst TEMPLATES templateKey = some src → isDir src = false)) →
      (create_instance name templateKey isDir copyOk s).1.1 = false ∧
      (create_instance name templateKey isDir copyOk s).2 = s) := by
  by_cases hv : validName (pyStrip name) = true
  · by_cases hr : (lookupInst s.registry (pyStrip name)).isSome
    · have hres : create_instance name templateKey isDir copyOk s
          = ((false, some "Instance already exists"), s) := by
        unfold create_instance
        simp [hv, hr]
      rw [hres]
      exact ⟨fun h => by simp at h, fun _ => ⟨rfl, rfl⟩⟩
    · by_cases ht : lookupInst TEMPLATES templateKey = none
      · have hres : create_instance name templateKey isDir copyOk s
            = ((false, some ("Template '" ++ templateKey ++ "' not found or is not a directory")), s) := by
          unfold create_instance
          simp [hv, hr, ht]
        rw [hres]
        exact ⟨fun h => by simp at h, fun _ => ⟨rfl, rfl⟩⟩
      · obtain ⟨src, hsrc⟩ := Option.ne_none_iff_exists'.mp ht
        by_cases hd : isDir src = true
        · by_cases hc : copyOk = true
          · constructor
            · intro _
              exact ⟨by rw [← validName_eq_spec]; exact hv,
                Option.not_isSome_iff_eq_none.mp hr, src, hsrc, hd⟩
            · intro hcontra
              exfalso
              rcases hcontra with h | h | h | h
              · rw [← validName_eq_spec, hv] at h; cases h
              · exact hr h
              · rw [hsrc] at h; cases h
              · have hdd := h src hsrc; rw [hd] at hdd; cases hdd
          · have hcf : copyOk = false := by revert hc; cases copyOk <;> simp
            have hres : create_instance name templateKey isDir copyOk s
                = ((false, some "copytree failed"), s) := by
              unfold create_instance
              simp [hv, hr, hsrc, hd, hcf]
            rw [hres]
            exact ⟨fun h => by simp at h, fun _ => ⟨rfl, rfl⟩⟩
        · have hdf : isDir src = false := by revert hd; cases isDir src <;> simp
          have hres : create_instance name templateKey isDir copyOk s
              = ((false, some ("Template '" ++ templateKey ++ "' not found or is not a directory")), s) := by
            unfold create_instance
            simp [hv, hr, hsrc, hdf]
          rw [hres]
          exact ⟨fun h => by simp at h, fun _ => ⟨rfl, rfl⟩⟩
  · have hres : create_instance name templateKey isDir copyOk s
        = ((false, some "Invalid name (alphanumeric + - _ only, max 64 chars)"), s) := by
      unfold create_instance
      simp [hv]
    rw [hres]
    exact ⟨fun h => by simp at h, fun _ => ⟨rfl, rfl⟩⟩

/-- Witness for C5 (amended) at the spec's own example: `create("dev 1",
"base")` — a name with an interior space — is rejected and the state is
unchanged. -/
theorem C5_create_validation_witness :
    (create_instance "dev 1" "base" (fun _ => true) true
        ⟨[], none, initProgress, []⟩).1.1 = false ∧
    (create_instance "dev 1" "base" (fun _ => true) true
        ⟨[], none, initProgress, []⟩).2 = ⟨[], none, initProgress, []⟩ :=
  (C5_create_validation "dev 1" "base" (fun _ => true) true ⟨[], none, initProgress, []⟩).2
    (Or.inl (by decide))

-- ── Claim C7 ────────────────────────────────────────────────────────────────

/-- The parsed records of a status-command output. -/
def parsedRecs (parse : String → Option PsRec) (out : String) : List PsRec :=
  (pyLines out).filterMap parse

theorem statusScan_fst (parse : String → Option PsRec) (lines : List String) :
    (statusScan parse lines).1
      = (lines.filterMap parse).all (fun o => o.state == some "running") := by
  induction lines with
  | nil => rfl
  | cons l rest ih =>
    unfold statusScan
    cases hp : parse l <;> simp [hp, ih]

theorem statusScan_mem (parse : String → Option PsRec) (lines : List String)
    (l : String) (hl : l ∈ lines) (hp : parse l = none) :
    l ∈ (statusScan parse lines).2 := by
  induction lines with
  | nil => cases hl
  | cons a rest ih =>
    rcases List.mem_cons.mp hl with rfl | hmem
    · simp [statusScan, hp]
    · have hin := ih hmem
      cases hq : parse a <;> simp [statusScan, hq] <;> exact Or.inr hin

/-- Claim C7, counterexample: on an output with no non-blank lines (empty
output, exit 0, registered instance) every parsed record — there are
none — vacuously reports a running state, yet `compose_status` reports the
instance as not running (`No containers`): the claimed "iff" fails for
record-free outputs. -/
theorem C7_counterexample :
    (compose_status (fun _ => none) [("a", "pa")] "a" 0 "").1 = false ∧
    (parsedRecs (fun _ => none) "").all (fun o => o.state == some "running") = true := by
  exact ⟨rfl, rfl⟩

/-- Claim C7 (amended): for a registered instance, exit code zero and an
output with at least one non-blank line, the running flag is true iff every
parsed record reports state `running`; and every non-blank line that fails
to parse appears verbatim among the returned status-text rows.  (An output
with no non-blank line is reported as not running with text `No
containers`, despite the vacuously-true record condition.) -/
theorem C7_compose_status_amended (parse : String → Option PsRec)
    (reg : List (String × String)) (name out : String)
    (hknown : (lookupInst reg name).isSome)
    (hlines : pyLines out ≠ []) :
    ((compose_status parse reg name 0 out).1 =
      (parsedRecs parse out).all (fun o => o.state == some "running")) ∧
    (∀ l ∈ pyLines out, parse l = none → l ∈ (compose_status parse reg name 0 out).2) := by
  obtain ⟨pv, hpv⟩ := Option.isSome_iff_exists.mp hknown
  have hred : compose_status parse reg name 0 out = statusScan parse (pyLines out) := by
    unfold compose_status
    rw [if_neg (by simp [hpv]), if_neg (by simp)]
    cases h : pyLines out with
    | nil => exact absurd h hlines
    | cons a t => rfl
  constructor
  · rw [hred, statusScan_fst]
    rfl
  · intro l hl hp
    rw [hred]
    exact statusScan_mem parse (pyLines out) l hl hp

/-- A concrete line parser for the C7 witness: parses exactly the line
`rec1` into a running record. -/
def parseW7 (l : String) : Option PsRec :=
  if l = "rec1" then some ⟨some "c1", some "running", some "Up"⟩ else none

/-- Witness for C7 (amended): one parsed running record plus one
unparseable line; the instance is reported running and the raw line is kept
in the status rows. -/
theorem C7_compose_status_amended_witness :
    (compose_status parseW7 [("a", "pa")] "a" 0 "rec1\ngarbage").1 = true ∧
    "garbage" ∈ (compose_status parseW7 [("a", "pa")] "a" 0 "rec1\ngarbage").2 :=
  ⟨((C7_compose_status_amended parseW7 [("a", "pa")] "a" "rec1\ngarbage" (by decide)
      (by decide)).1).trans (by decide),
   (C7_compose_status_amended parseW7 [("a", "pa")] "a" "rec1\ngarbage" (by decide)
      (by decide)).2 "garbage" (by decide) (by decide)⟩

-- ── Claim C8 ────────────────────────────────────────────────────────────────

theorem do_action_resolved_runs_cmd (action u cwd : String) (cmd : List String)
    (env : ActionEnv) (s : MState) (hcmd : actionCmd action = some cmd) :
    (⟨cmd, some cwd⟩ : Cmd) ∈ (do_action_resolved action u cwd env s).trace := by
  unfold do_action_resolved
  rw [hcmd]
  by_cases hdv : action = "down_volumes" <;>
    by_cases hwr : env.wasRunning = true <;>
    by_cases hm : env.mainExit = 0 <;>
    simp [hdv, hwr, hm, runCmd, psProbe, List.mem_append]

/-- Claim C8, counterexample: with registry `[a]` (selected `a`), a `stop`
request naming the absent instance `ghost` is answered `ok = true` — not a
NotFound rejection — and the stop command is executed, against instance
`a`'s directory. -/
theorem C8_counterexample :
    (api_action false "stop" (some "ghost") ⟨false, 0, 0⟩
        ⟨[("a", "pa")], some "a", initProgress, []⟩).1 = ⟨true, none⟩ ∧
    (api_action false "stop" (some "ghost") ⟨false, 0, 0⟩
        ⟨[("a", "pa")], some "a", initProgress, []⟩).2.trace =
      [⟨["docker", "compose", "down"], some "pa"⟩] := by
  exact ⟨rfl, rfl⟩

/-- Claim C8 (amended): an `/api/action` request naming an instance absent
from the registry is not rejected: the initiating response is `ok = true`
(the boundary performs only the busy check), and the worker falls back to
the currently selected instance — when one resolves, the action's command
runs against the selected instance's directory; only when nothing resolves
does the operation fail, asynchronously through the progress record, with
no external command run. -/
theorem C8_action_fallback (s : MState) (action t : String) (env : ActionEnv)
    (habs : lookupInst s.registry t = none) :
    ((api_action false action (some t) env s).1 = ⟨true, none⟩) ∧
    (resolveSel s.registry s.selFile = none →
      (api_action false action (some t) env s).2.trace = s.trace ∧
      (api_action false action (some t) env s).2.progress.ok = false) ∧
    (∀ u cmd path, resolveSel s.registry s.selFile = some u → u ≠ "" →
      actionCmd action = some cmd → lookupInst s.registry u = some path →
      (⟨cmd, some path⟩ : Cmd) ∈ (api_action false action (some t) env s).2.trace) := by
  have h1 : ¬ (t ≠ "" ∧ (lookupInst s.registry t).isSome) := by
    intro hc; rw [habs] at hc; exact absurd hc.2 (by decide)
  have hw : (api_action false action (some t) env s).2
      = do_action_async action (some t) env s := rfl
  refine ⟨rfl, ?_, ?_⟩
  · intro hnone
    have hgs : (get_selected s).1 = none := by rw [get_selected_fst]; exact hnone
    rw [hw]
    unfold do_action_async
    simp only [h1, if_false, hgs]
    constructor
    · simp [actionNoInstance, get_selected_trace]
    · simp [actionNoInstance, progress_done]
  · intro u cmd path hres hu0 hcmd hpath
    have hgs : (get_selected s).1 = some u := by rw [get_selected_fst]; exact hres
    have hlp : lookupInst (get_selected s).2.registry u = some path := by
      rw [get_selected_registry]; exact hpath
    rw [hw]
    unfold do_action_async
    simp only [h1, if_false, hgs, hlp, if_neg hu0]
    exact do_action_resolved_runs_cmd action u path cmd env (get_selected s).2 hcmd

/-- Witness for C8 (amended): registry `[b]` (selected `b`), a `pull`
request naming the absent `ghost`; the pull command runs against `b`. -/
theorem C8_action_fallback_witness :
    (⟨["docker", "compose", "pull"], some "pb"⟩ : Cmd) ∈
      (api_action false "pull" (some "ghost") ⟨false, 0, 0⟩
        ⟨[("b", "pb")], some "b", initProgress, []⟩).2.trace :=
  (C8_action_fallback ⟨[("b", "pb")], some "b", initProgress, []⟩ "pull" "ghost" ⟨false, 0, 0⟩
      rfl).2.2 "b" ["docker", "compose", "pull"] "pb" rfl (by decide) rfl rfl

-- ── Claim C6 ────────────────────────────────────────────────────────────────

/-- Whether every `uci set` sub-step exits zero (`i` is the index of the
first command). -/
def setsOk (env : WifiEnv) : List (List String) → Nat → Bool
  | [], _ => true
  | _ :: rest, i => (env.setExit i == 0) && setsOk env rest (i + 1)

theorem runSetCmds_fst (env : WifiEnv) (cmds : List (List String)) (i : Nat) (s : MState) :
    (runSetCmds env cmds i s).1 = setsOk env cmds i := by
  induction cmds generalizing i s with
  | nil => rfl
  | cons c rest ih => simp [runSetCmds, setsOk, runCmd, ih]

theorem runSetCmds_trace (env : WifiEnv) (cmds : List (List String)) (i : Nat) (s : MState) :
    (runSetCmds env cmds i s).2.trace = s.trace ++ cmds.map (fun c => (⟨c, none⟩ : Cmd)) := by
  induction cmds generalizing i s with
  | nil => simp [runSetCmds]
  | cons c rest ih => simp [runSetCmds, runCmd, ih]

/-- Claim C6 (amended): the WiFi apply finishes `ok = true` iff every
parameter sub-step and the `uci commit` succeeded — the `wifi reload` exit
code and the optional restart stage's outcome are ignored by the final
`ok`; the operation always reaches `done`; and every `uci set` sub-step is
executed (appears in the trace) regardless of other sub-steps' failures. -/
theorem C6_wifi_ok_condition (hsSsid hsPsk staSsid staPsk : String) (env : WifiEnv)
    (s : MState) (hne : wifiSetCmds hsSsid hsPsk staSsid staPsk ≠ []) :
    ((do_wifi_async hsSsid hsPsk staSsid staPsk env s).progress.ok =
      (setsOk env (wifiSetCmds hsSsid hsPsk staSsid staPsk) 0 && (env.commitExit == 0))) ∧
    ((do_wifi_async hsSsid hsPsk staSsid staPsk env s).progress.done = true) ∧
    (∀ c ∈ wifiSetCmds hsSsid hsPsk staSsid staPsk,
      (⟨c, none⟩ : Cmd) ∈ (do_wifi_async hsSsid hsPsk staSsid staPsk env s).trace) := by
  unfold do_wifi_async
  rw [if_neg hne]
  cases hsel : (get_selected s).1 with
  | none =>
    cases hok : setsOk env (wifiSetCmds hsSsid hsPsk staSsid staPsk) 0 with
    | false =>
      refine ⟨?_, ?_, ?_⟩ <;>
        simp [hsel, runSetCmds_fst, runSetCmds_trace, hok, runCmd, progress_done,
          progress_stage, progress_reset, List.mem_append, List.mem_map] <;>
        (intro c hc; tauto)
    | true =>
      by_cases hcommit : env.commitExit = 0 <;>
        refine ⟨?_, ?_, ?_⟩ <;>
          simp [hsel, runSetCmds_fst, runSetCmds_trace, hok, hcommit, runCmd, progress_done,
            progress_stage, progress_reset, List.mem_append, List.mem_map] <;>
          (intro c hc; tauto)
  | some sel =>
    cases hok : setsOk env (wifiSetCmds hsSsid hsPsk staSsid staPsk) 0 with
    | false =>
      refine ⟨?_, ?_, ?_⟩ <;>
        simp [hsel, runSetCmds_fst, runSetCmds_trace, hok, runCmd, progress_done,
          progress_stage, progress_reset, List.mem_append, List.mem_map] <;>
        (intro c hc; tauto)
    | true =>
      by_cases hcommit : env.commitExit = 0 <;>
        cases hrun : env.selRunning <;>
          refine ⟨?_, ?_, ?_⟩ <;>
            simp [hsel, runSetCmds_fst, runSetCmds_trace, hok, hcommit, hrun, runCmd,
              progress_done, progress_stage, progress_reset, List.mem_append, List.mem_map] <;>
            (intro c hc; tauto)

/-- Claim C6, counterexample: setting a hotspot SSID succeeds, the commit
succeeds, but the restart command exits 1 — its stage is recorded
`error` — and the operation still finishes `ok = true`: overall success
does not require the restart stage (nor the reload) to succeed. -/
theorem C6_counterexample :
    (do_wifi_async "n" "" "" "" ⟨fun _ => 0, 0, 0, 1, true⟩
        ⟨[("a", "pa")], some "a", initProgress, []⟩).progress.ok = true ∧
    (do_wifi_async "n" "" "" "" ⟨fun _ => 0, 0, 0, 1, true⟩
        ⟨[("a", "pa")], some "a", initProgress, []⟩).progress.stages =
      [⟨"Set WiFi parameters", .done⟩, ⟨"Commit & reload WiFi", .done⟩,
       ⟨"Restart a compose", .error⟩] := by
  exact ⟨rfl, rfl⟩

/-- Environment for the C6 witness: every command succeeds, nothing
running. -/
def wifiEnvW : WifiEnv := ⟨fun _ => 0, 0, 0, 0, false⟩

/-- Witness for C6 (amended): one hotspot SSID field set, all commands
succeeding. -/
theorem C6_wifi_ok_condition_witness :
    ((do_wifi_async "x" "" "" "" wifiEnvW
        ⟨[("a", "pa")], some "a", initProgress, []⟩).progress.ok =
      (setsOk wifiEnvW (wifiSetCmds "x" "" "" "") 0 && (wifiEnvW.commitExit == 0))) ∧
    ((do_wifi_async "x" "" "" "" wifiEnvW
        ⟨[("a", "pa")], some "a", initProgress, []⟩).progress.done = true) ∧
    (∀ c ∈ wifiSetCmds "x" "" "" "",
      (⟨c, none⟩ : Cmd) ∈ (do_wifi_async "x" "" "" "" wifiEnvW
        ⟨[("a", "pa")], some "a", initProgress, []⟩).trace) :=
  C6_wifi_ok_condition "x" "" "" "" wifiEnvW ⟨[("a", "pa")], some "a", initProgress, []⟩
    (by decide)

-- ── Claim C1 ────────────────────────────────────────────────────────────────

/-- Claim C1, counterexample: the boundary check and the worker's blocking
acquisition are not atomic.  Both requests can pass the non-blocking check
while the lock is free; one worker then acquires the lock, reaching a
reachable state in which the other accepted operation is queued behind the
lock, and from there the queued worker later acquires the lock and
executes — refuting "no operation is ever queued behind the lock, a second
request while one is in flight is rejected and never executed". -/
theorem C1_counterexample :
    LockReach { pa := .acquired, pb := .spawned, lock := true } ∧
    QueuedBehindLock { pa := .acquired, pb := .spawned, lock := true } ∧
    Relation.ReflTransGen LockStep { pa := .acquired, pb := .spawned, lock := true }
      { pa := .finished, pb := .acquired, lock := true } := by
  refine ⟨?_, ?_, ?_⟩
  · exact Relation.ReflTransGen.tail
      (Relation.ReflTransGen.tail
        (Relation.ReflTransGen.tail Relation.ReflTransGen.refl
          (LockStep.checkA_free lockInit rfl rfl))
        (LockStep.checkB_free ⟨.spawned, .arrived, false⟩ rfl rfl))
      (LockStep.acquireA ⟨.spawned, .spawned, false⟩ rfl rfl)
  · exact Or.inl ⟨rfl, rfl⟩
  · exact Relation.ReflTransGen.tail
      (Relation.ReflTransGen.tail Relation.ReflTransGen.refl
        (LockStep.finishA ⟨.acquired, .spawned, true⟩ rfl))
      (LockStep.acquireB ⟨.finished, .spawned, false⟩ rfl rfl)

/-- Claim C1 (amended): the true part of the discipline.  At most one
operation ever holds the lock (mutual exclusion over all reachable states);
while the lock is held, a request's boundary check can only reject it
(no step turns an `arrived` request into an accepted one while the lock is
held); and a rejected request stays rejected forever — its operation is
never executed.  What fails in the original claim is only queueing: a
request accepted before the competing worker acquires the lock blocks and
runs later (see the counterexample). -/
theorem C1_lock_discipline :
    (∀ s : LockSys, LockReach s → ¬ (s.pa = .acquired ∧ s.pb = .acquired)) ∧
    (∀ s s' : LockSys, LockStep s s' → s.lock = true → s.pb = .arrived →
      s'.pb = .spawned → False) ∧
    (∀ s s' : LockSys, Relation.ReflTransGen LockStep s s' → s.pb = .rejected →
      s'.pb = .rejected) := by
  refine ⟨fun s hs => (lockInv_of_reach hs).2, ?_, fun s s' h hr => rejected_stays_b h hr⟩
  intro s s' h hl hb hsp
  cases h <;> simp_all

/-- Witness for C1 (amended): mutual exclusion instantiated at the initial
state, and rejection permanence instantiated along an empty run. -/
theorem C1_lock_discipline_witness :
    ¬ (lockInit.pa = Phase.acquired ∧ lockInit.pb = Phase.acquired) :=
  C1_lock_discipline.1 lockInit Relation.ReflTransGen.refl

end FIM
